import Mathlib

/-
  Verification of the token-server in src/token-server/server.js.

  The server is an Express application. Its middleware stack, in the order
  the source registers it, is: cors(), express.json(), express.static of the
  directory named public, the route GET /, the route GET /api/get-token, and
  the framework default handling for everything that falls through.

  The embedding models one request travelling through that stack as a pure
  function of the request and of the filesystem environment. The filesystem
  is explicit because express.static resolves its root relative to the
  working directory of the process, while the GET / route handler reads the
  entry file relative to the directory of the source file.
-/

namespace TokenServer

/-- HTTP methods relevant to the server. -/
inductive Method
  | GET | HEAD | POST | PUT | DELETE | OPTIONS
deriving DecidableEq

/-- An HTTP request: method, URL path (without the query string), the raw
query string, the headers and the raw body. Express matches routes on the
path component only. -/
structure Request where
  method : Method
  path : String
  query : String
  headers : List (String × String)
  body : String
deriving DecidableEq

/-- Which part of the application produced the response: the cors
preflight handling, the express.json error path, the static middleware,
one of the two routes, or the framework default handling. -/
inductive Component
  | corsPreflight | jsonError | staticMw | rootRoute | tokenRoute | defaultHandler
deriving DecidableEq

/-- Response bodies the server can produce: an empty body, the contents of a
file together with the absolute path it was read from, a JSON object with
the two fields message and url, the framework default error page for the
entity.parse.failed error of the body parser, or the framework default
not-found page for a method and path. -/
inductive Body
  | empty
  | file (path content : String)
  | json (message url : String)
  | parseError
  | defaultNotFound (method : Method) (path : String)
deriving DecidableEq

/-- An HTTP response: status code, the value of the
Access-Control-Allow-Origin header when present, the component that
produced the response, and the body. -/
structure Response where
  status : Nat
  allowOrigin : Option String
  servedBy : Component
  body : Body
deriving DecidableEq

/-- The filesystem environment of one run: the working directory of the
process, the directory holding the server source file, and the files on
disk as absolute path and content pairs. -/
structure FS where
  cwd : String
  dirname : String
  files : List (String × String)

/-- Look a path up in the list of files on disk. -/
def lookupFile : List (String × String) → String → Option String
  | [], _ => none
  | (k, v) :: rest, p => if k = p then some v else lookupFile rest p

/-- Lowercase one ASCII letter; Node lowercases incoming header names and
type-is compares media types case-insensitively. -/
def asciiLower (c : Char) : Char :=
  if 65 ≤ c.toNat ∧ c.toNat ≤ 90 then Char.ofNat (c.toNat + 32) else c

/-- ASCII lowercasing of a string. -/
def lowerStr (s : String) : String :=
  String.mk (s.toList.map asciiLower)

/-- Header lookup; HTTP header names are case-insensitive, the name to
look for is given in lowercase. -/
def headerValue : List (String × String) → String → Option String
  | [], _ => none
  | (k, v) :: rest, n => if lowerStr k = n then some v else headerValue rest n

/-- Space or horizontal tab, the padding allowed around a media type. -/
def isHeaderSpace (c : Char) : Bool :=
  c = ' ' ∨ c = Char.ofNat 9

/-- The characters before the first semicolon: the media type of a
Content-Type value with its parameters cut off. -/
def takeUntilSemi : List Char → List Char
  | [] => []
  | c :: cs => if c = ';' then [] else c :: takeUntilSemi cs

/-- Strip leading and trailing padding. -/
def trimChars (cs : List Char) : List Char :=
  ((cs.dropWhile isHeaderSpace).reverse.dropWhile isHeaderSpace).reverse

/-- The lowercased media type of a Content-Type header value. -/
def mediaType (v : String) : String :=
  String.mk ((trimChars (takeUntilSemi v.toList)).map asciiLower)

/-- The hasbody test of type-is: a request carries a message body when it
has a Transfer-Encoding or a Content-Length header (Node itself rejects a
non-numeric Content-Length at the protocol layer). -/
def hasBody (req : Request) : Bool :=
  (headerValue req.headers "transfer-encoding").isSome ||
  (headerValue req.headers "content-length").isSome

/-- Whether express.json would read the request body at all: the request
carries a body whose declared media type is the application/json default
of the middleware. -/
def isJsonRequest (req : Request) : Bool :=
  match headerValue req.headers "content-type" with
  | some v => mediaType v == "application/json"
  | none => false

/-- An ASCII decimal digit. -/
def asciiDigit (c : Char) : Bool :=
  48 ≤ c.toNat ∧ c.toNat ≤ 57

/-- A hexadecimal digit, for the four-digit unicode escapes of JSON
strings. -/
def hexDigit (c : Char) : Bool :=
  asciiDigit c || (97 ≤ (asciiLower c).toNat ∧ (asciiLower c).toNat ≤ 102)

/-- JSON whitespace: space, tab, line feed, carriage return. -/
def jsonWs (c : Char) : Bool :=
  c = ' ' ∨ c = Char.ofNat 9 ∨ c = Char.ofNat 10 ∨ c = Char.ofNat 13

/-- Drop leading JSON whitespace. -/
def skipWs : List Char → List Char
  | [] => []
  | c :: cs => if jsonWs c then skipWs cs else c :: cs

/-- Drop a run of digits. -/
def dropDigits : List Char → List Char
  | [] => []
  | c :: cs => if asciiDigit c then dropDigits cs else c :: cs

/-- The exponent part of a JSON number, if present; returns what
follows. -/
def parseExp (cs : List Char) : Option (List Char) :=
  match cs with
  | c :: rest =>
    if c = 'e' ∨ c = 'E' then
      let rest2 := match rest with
        | s :: r2 => if s = '+' ∨ s = '-' then r2 else s :: r2
        | [] => []
      match rest2 with
      | d :: r3 => if asciiDigit d then some (dropDigits r3) else none
      | [] => none
    else some (c :: rest)
  | [] => some []

/-- The fraction and exponent parts of a JSON number. -/
def parseFrac (cs : List Char) : Option (List Char) :=
  match cs with
  | c :: rest =>
    if c = '.' then
      match rest with
      | d :: rest2 => if asciiDigit d then parseExp (dropDigits rest2) else none
      | [] => none
    else parseExp (c :: rest)
  | [] => parseExp []

/-- A JSON number: optional minus, an integer part without leading zeros,
optional fraction, optional exponent. -/
def parseNumber (cs0 : List Char) : Option (List Char) :=
  let cs1 := match cs0 with
    | c :: rest => if c = '-' then rest else c :: rest
    | [] => []
  match cs1 with
  | c :: rest =>
    if c = '0' then parseFrac rest
    else if asciiDigit c then parseFrac (dropDigits rest)
    else none
  | [] => none

/-- The rest of a JSON string after the opening quote: ordinary
characters, escapes, no raw control characters; returns what follows the
closing quote. The fuel is spent one unit per consumed character. -/
def parseStringRest : Nat → List Char → Option (List Char)
  | 0, _ => none
  | _, [] => none
  | fuel+1, c :: cs =>
    if c.toNat < 32 then none
    else if c = '"' then some cs
    else if c = Char.ofNat 92 then
      match cs with
      | [] => none
      | e :: cs2 =>
        if e = '"' ∨ e = Char.ofNat 92 ∨ e = '/' ∨ e = 'b' ∨ e = 'f' ∨
            e = 'n' ∨ e = 'r' ∨ e = 't' then
          parseStringRest fuel cs2
        else if e = 'u' then
          match cs2 with
          | h1 :: h2 :: h3 :: h4 :: cs3 =>
            if hexDigit h1 && hexDigit h2 && hexDigit h3 && hexDigit h4 then
              parseStringRest fuel cs3
            else none
          | _ => none
        else none
    else parseStringRest fuel cs

mutual

/-- A JSON value by recursive descent; returns what follows the value.
Every recursive call first consumes at least one character, so fuel of
one unit per input character suffices. -/
def parseValue : Nat → List Char → Option (List Char)
  | 0, _ => none
  | fuel+1, cs =>
    match cs with
    | '{' :: rest => parseObjectRest fuel true (skipWs rest)
    | '[' :: rest => parseArrayRest fuel true (skipWs rest)
    | '"' :: rest => parseStringRest (rest.length + 1) rest
    | 't' :: 'r' :: 'u' :: 'e' :: rest => some rest
    | 'f' :: 'a' :: 'l' :: 's' :: 'e' :: rest => some rest
    | 'n' :: 'u' :: 'l' :: 'l' :: rest => some rest
    | c :: rest => if c = '-' ∨ asciiDigit c = true then parseNumber (c :: rest) else none
    | [] => none

/-- The inside of a JSON object after the opening brace, whitespace
skipped: members separated by commas; the flag allows the immediate
closing brace of the empty object. -/
def parseObjectRest : Nat → Bool → List Char → Option (List Char)
  | 0, _, _ => none
  | fuel+1, allowEnd, cs =>
    match cs with
    | '}' :: rest => if allowEnd then some rest else none
    | '"' :: rest =>
      match parseStringRest (rest.length + 1) rest with
      | some cs2 =>
        match skipWs cs2 with
        | ':' :: cs3 =>
          match parseValue fuel (skipWs cs3) with
          | some cs4 =>
            match skipWs cs4 with
            | ',' :: cs5 => parseObjectRest fuel false (skipWs cs5)
            | '}' :: cs5 => some cs5
            | _ => none
          | none => none
        | _ => none
      | none => none
    | _ => none

/-- The inside of a JSON array after the opening bracket, whitespace
skipped. -/
def parseArrayRest : Nat → Bool → List Char → Option (List Char)
  | 0, _, _ => none
  | fuel+1, allowEnd, cs =>
    match cs with
    | ']' :: rest => if allowEnd then some rest else none
    | _ =>
      match parseValue fuel cs with
      | some cs2 =>
        match skipWs cs2 with
        | ',' :: cs3 => parseArrayRest fuel false (skipWs cs3)
        | ']' :: cs3 => some cs3
        | _ => none
      | none => none

end

/-- JSON.parse of the whole body together with the strict check of the
body parser: the first character after whitespace must open an object or
an array, the value must parse, and only whitespace may follow it. -/
def strictJsonAccepts (s : String) : Bool :=
  match skipWs s.toList with
  | '{' :: rest =>
    (match parseValue (s.toList.length + 1) ('{' :: rest) with
     | some r => (skipWs r).isEmpty
     | none => false)
  | '[' :: rest =>
    (match parseValue (s.toList.length + 1) ('[' :: rest) with
     | some r => (skipWs r).isEmpty
     | none => false)
  | _ => false

/-- The body parser accepts an empty body as the empty object; any other
body must pass the strict JSON parse. -/
def jsonBodyAccepted (b : String) : Bool :=
  b.toList.isEmpty || strictJsonAccepts b

/-- Whether express.json answers the request itself with its
entity.parse.failed error: the request carries a message body declared as
JSON and the body does not parse. The body string stands for the payload
after transport decoding with the default identity encoding and utf-8
charset. -/
def jsonBodyRejected (req : Request) : Bool :=
  hasBody req && isJsonRequest req && !(jsonBodyAccepted req.body)

/-- The fixed port, from the source line declaring the PORT constant. -/
def PORT : Nat := 3000

/-- The message field of the /api/get-token payload, verbatim from the
source. -/
def tokenMessage : String := "Use the web interface to get your JWT token"

/-- The url field of the /api/get-token payload: a template literal
interpolating PORT. -/
def tokenUrl : String := "http://localhost:" ++ toString PORT

/-- Whether a request path ends in a slash, so that express.static answers
it with the directory index file. -/
def endsWithSlash (p : String) : Bool :=
  p.toList.getLast? = some (Char.ofNat 47)

/-- The absolute file that express.static consults for a request path: the
root named public is resolved against the working directory, and a path
ending in a slash is answered by the directory index file index.html. -/
def staticPath (fs : FS) (p : String) : String :=
  fs.cwd ++ "/public" ++ (if endsWithSlash p then p ++ "index.html" else p)

/-- The file express.static would serve for a request path, if any. -/
def staticLookup (fs : FS) (p : String) : Option String :=
  lookupFile fs.files (staticPath fs p)

/-- The argument of res.sendFile in the GET / handler:
path.join of the source directory, public, and index.html. -/
def indexFilePath (fs : FS) : String :=
  fs.dirname ++ "/public" ++ "/index.html"

/-- One request through the middleware stack, in registration order.
cors() answers OPTIONS requests itself with 204 and sets the
Access-Control-Allow-Origin header to the wildcard on every other request
before passing it on. express.json() runs next, on every method alike: a
request carrying a message body declared as application/json whose body
does not parse is answered 400 through the framework default error
handling before the static middleware or any route runs; every other
request passes through unchanged. express.static answers GET and HEAD
requests whose path names an existing file under the public directory of
the working directory. The two routes follow, and everything else
receives the framework default 404 page. A missing entry file makes
res.sendFile fail with a not-found error that the framework default error
handling turns into a 404. -/
def handleRequest (fs : FS) (req : Request) : Response :=
  if req.method = Method.OPTIONS then
    { status := 204, allowOrigin := some "*",
      servedBy := Component.corsPreflight, body := Body.empty }
  else if jsonBodyRejected req then
    { status := 400, allowOrigin := some "*",
      servedBy := Component.jsonError, body := Body.parseError }
  else if req.method = Method.GET ∨ req.method = Method.HEAD then
    match staticLookup fs req.path with
    | some c =>
        { status := 200, allowOrigin := some "*",
          servedBy := Component.staticMw,
          body := Body.file (staticPath fs req.path) c }
    | none =>
        if req.path = "/" then
          match lookupFile fs.files (indexFilePath fs) with
          | some c =>
              { status := 200, allowOrigin := some "*",
                servedBy := Component.rootRoute,
                body := Body.file (indexFilePath fs) c }
          | none =>
              { status := 404, allowOrigin := some "*",
                servedBy := Component.rootRoute, body := Body.empty }
        else if req.path = "/api/get-token" then
          { status := 200, allowOrigin := some "*",
            servedBy := Component.tokenRoute,
            body := Body.json tokenMessage tokenUrl }
        else
          { status := 404, allowOrigin := some "*",
            servedBy := Component.defaultHandler,
            body := Body.defaultNotFound req.method req.path }
  else
    { status := 404, allowOrigin := some "*",
      servedBy := Component.defaultHandler,
      body := Body.defaultNotFound req.method req.path }

/-- Modelled from the spec: the repository ships a public directory holding
the entry file index.html (the directory is not under src, only the server
source is), and the server process is started from the repository
directory, so the working directory and the source directory coincide. The
content of the entry file is a parameter. -/
def repoFS (idx : String) : FS :=
  { cwd := "/srv/token-server", dirname := "/srv/token-server",
    files := [("/srv/token-server/public/index.html", idx)] }

/-- A server run: the responses to a sequence of requests, each handled in
turn. The source keeps no mutable state between requests. -/
def serve (fs : FS) : List Request → List Response
  | [] => []
  | r :: rs => handleRequest fs r :: serve fs rs

/-- The process environment: variables and command line arguments. The
server source reads neither. -/
structure Env where
  vars : List (String × String)
  argv : List String

/-- The port the server listens on for a given process environment: the
source passes the PORT constant to app.listen and consults nothing else. -/
def serverPort (_ : Env) : Nat := PORT

/-- Request handling for a given process environment: the handlers consult
neither environment variables nor command line arguments. -/
def handleRequestE (_ : Env) (fs : FS) (req : Request) : Response :=
  handleRequest fs req

/-- The console lines the app.listen callback prints, verbatim and in
order, with the second line interpolating PORT. -/
def startupLines : List String :=
  [ "🚀 Clerk Token Server запущено!",
    "📱 Відкрийте: http://localhost:" ++ toString PORT,
    "🔑 Отримайте JWT токен через веб-інтерфейс",
    "",
    "Інструкція:",
    "1. Відкрийте http://localhost:3000 у браузері",
    "2. Введіть ваш Clerk Publishable Key",
    "3. Увійдіть в систему",
    "4. Скопіюйте JWT токен для Postman" ]

/-- A filesystem where the working directory and the source directory
differ and each holds its own public directory; used to examine the
static root resolution. -/
def fsSplit : FS :=
  { cwd := "/a", dirname := "/b",
    files := [("/a/public/style.css", "css"), ("/b/public/index.html", "home")] }

/-- C3 fails as stated: with the working directory /a and the source
directory /b, the asset style.css is served from the public directory
under /a while GET / serves the entry file from the public directory
under /b — two different directories, so which directory serves the
static assets does depend on the working directory of the process. -/
theorem static_dir_depends_on_cwd :
    (handleRequest fsSplit ⟨Method.GET, "/style.css", "", [], ""⟩).body =
      Body.file "/a/public/style.css" "css" ∧
    (handleRequest fsSplit ⟨Method.GET, "/", "", [], ""⟩).body =
      Body.file "/b/public/index.html" "home" ∧
    ("/a/public" : String) ≠ "/b/public" := by
  refine ⟨rfl, rfl, by decide⟩

/-- C3 amended: whenever the process is started from the source directory,
every file the server serves comes from the single public directory under
that directory. -/
theorem served_files_single_dir (fs : FS) (req : Request) (p c : String)
    (h : fs.cwd = fs.dirname)
    (hb : (handleRequest fs req).body = Body.file p c) :
    ∃ rest, p = fs.dirname ++ "/public" ++ rest := by
  unfold handleRequest at hb
  split at hb
  · exact absurd hb (by simp)
  · split at hb
    · exact absurd hb (by simp)
    · split at hb
      · split at hb
        · refine ⟨if endsWithSlash req.path then req.path ++ "index.html" else req.path, ?_⟩
          have hp : p = staticPath fs req.path := by
            injection hb with h1 h2
            exact h1.symm
          rw [hp, staticPath, h]
        · split at hb
          · split at hb
            · refine ⟨"/index.html", ?_⟩
              have hp : p = indexFilePath fs := by
                injection hb with h1 h2
                exact h1.symm
              rw [hp, indexFilePath]
            · exact absurd hb (by simp)
          · split at hb
            · exact absurd hb (by simp)
            · exact absurd hb (by simp)
      · exact absurd hb (by simp)

/-- Witness for C3 amended: against the repository filesystem, the file
served for GET / lies under the single public directory. -/
theorem served_files_single_dir_witness :
    (repoFS "x").cwd = (repoFS "x").dirname ∧
    (∃ rest, "/srv/token-server/public/index.html" =
      (repoFS "x").dirname ++ "/public" ++ rest) :=
  ⟨rfl, served_files_single_dir (repoFS "x") ⟨Method.GET, "/", "", [], ""⟩
    "/srv/token-server/public/index.html" "x" rfl rfl⟩

/-- C7: the listening port is 3000 for every process environment, and the
response to any request does not depend on environment variables or
command line arguments. -/
theorem config_independent (e1 e2 : Env) (fs : FS) (req : Request) :
    serverPort e1 = 3000 ∧ handleRequestE e1 fs req = handleRequestE e2 fs req :=
  ⟨rfl, rfl⟩

/-- C8: handling a request does not change the server: within any run, the
response to a request is the one the handler gives it in isolation,
independent of the requests handled before or after it. -/
theorem request_independent (fs : FS) (pre post : List Request) (r : Request) :
    (serve fs (pre ++ r :: post)).get? pre.length = some (handleRequest fs r) := by
  induction pre with
  | nil => rfl
  | cons a t ih => simpa [serve] using ih

/-- C9 fails as stated: the startup callback prints nine console lines,
not ten. -/
theorem startup_lines_not_ten : startupLines.length ≠ 10 := by decide

/-- C9 amended: on a successful bind the startup callback logs exactly the
fixed sequence of nine console lines, the instruction steps among them,
with the second line naming the listening address built from PORT. -/
theorem startup_lines_fixed_nine :
    startupLines.length = 9 ∧
    startupLines =
      [ "🚀 Clerk Token Server запущено!",
        "📱 Відкрийте: http://localhost:" ++ toString PORT,
        "🔑 Отримайте JWT токен через веб-інтерфейс",
        "",
        "Інструкція:",
        "1. Відкрийте http://localhost:3000 у браузері",
        "2. Введіть ваш Clerk Publishable Key",
        "3. Увійдіть в систему",
        "4. Скопіюйте JWT токен для Postman" ] ∧
    startupLines.get? 1 = some "📱 Відкрийте: http://localhost:3000" :=
  ⟨rfl, rfl, rfl⟩

/-- C10: every response to every request, from every route and middleware,
carries the Access-Control-Allow-Origin header with the wildcard value,
because the cors middleware with its default configuration runs before
everything else. -/
theorem cors_always (fs : FS) (req : Request) :
    (handleRequest fs req).allowOrigin = some "*" := by
  obtain ⟨m, p, q, hd, b⟩ := req
  unfold handleRequest
  repeat' split
  all_goals rfl

end TokenServer
